import Mathlib

/-!
Verification development for the blockchain-hr-platform repository.

Part 1 models the backend reconciliation path
(`backend/src/services/eventListenerService.js` together with the
`ContractActivity` and `User` mongoose models and the auth middleware
`backend/src/middleware/auth.js`).

Part 2 models the on-chain state machine
(`contracts/contracts/EmploymentContract.sol`).

Modelling conventions:
* machine integers and wei amounts are `Nat` (the store keeps wei as a
  decimal string; `Nat` is in bijection with those strings);
* MongoDB collections are Lean lists; `create` on a collection with a
  unique index is a function returning `Option` (`none` = duplicate-key
  error); `findOneAndUpdate` without `upsert` updates the first match and
  is a no-op when no document matches;
* JavaScript `toLowerCase` is `lower`;
* each `await` that can reject is either total (reads modelled as pure
  functions) or explicit in the control flow of the handler.
-/

namespace HRPlatform

/-- JS `String.prototype.toLowerCase` as used on addresses in the handlers. -/
def lower (s : String) : String := String.mk (s.data.map Char.toLower)

/-- `eventType` enum of the `ContractActivity` schema (models/ContractActivity.js). -/
inductive EventType
  | ContractCreated
  | ContractAccepted
  | ContractActivated
  | MilestoneSubmitted
  | MilestoneApproved
  | MilestonePaid
  | ContractDisputed
  | ContractCompleted
  | ContractFinalized
  | ContractCancelled
deriving DecidableEq

/-- One document of the `ContractActivity` collection
(models/ContractActivity.js).  The `eventData` subdocument is flattened
into the four optional fields. -/
structure ActivityRecord where
  contractId : Nat
  transactionHash : String
  blockNumber : Nat
  eventType : EventType
  company : String
  talent : String
  initiator : Option String
  milestoneIndex : Option Nat
  amount : Option Nat
  ipfsHash : Option String
  reason : Option String
  timestamp : Nat
  processed : Bool
deriving DecidableEq

/-- `reputation` subdocument of the `User` schema (models/User.js).
`rating` and the three contract counters are `Number`-typed (default 0);
`totalEarned` and `totalSpent` are `String`-typed with default the
string `'0'` — modelled here as the `Nat` the string denotes, which the
handlers never manage to change (their `$inc` against the `String` path
rejects; see `handleContractCreated` / `handleMilestonePaid`). -/
structure Reputation where
  rating : Nat
  totalContracts : Nat
  completedContracts : Nat
  disputedContracts : Nat
  totalEarned : Nat
  totalSpent : Nat
deriving DecidableEq

/-- Schema defaults of the `reputation` subdocument. -/
def repZero : Reputation :=
  { rating := 0, totalContracts := 0, completedContracts := 0
    disputedContracts := 0, totalEarned := 0, totalSpent := 0 }

/-- One entry of the `credentials` array of the `User` schema. -/
structure Credential where
  tokenId : Nat
  skillName : String
  issuer : String
  issuedAt : Nat
deriving DecidableEq

/-- One document of the `User` collection (models/User.js); only the
fields touched by the reconciliation path and the auth middleware are
kept. -/
structure User where
  walletAddress : String
  role : String
  nonce : Option String
  lastLogin : Option Nat
  reputation : Reputation
  credentials : List Credential
deriving DecidableEq

/-- The durable MongoDB state touched by the reconciliation path. -/
structure DB where
  activities : List ActivityRecord
  users : List User
deriving DecidableEq

/-- `ContractActivity.create(doc)`: the schema has `transactionHash:
{ unique: true }`, so inserting a document whose transaction hash is
already present raises a duplicate-key error (`none`); otherwise the
document is appended. -/
def activityCreate (r : ActivityRecord) (db : DB) : Option DB :=
  if db.activities.any fun x => x.transactionHash == r.transactionHash then none
  else some { db with activities := db.activities ++ [r] }

/-- `User.findOneAndUpdate({walletAddress: addr}, upd)` without `upsert`:
update the first matching document, no-op when none matches. -/
def updateFirst (addr : String) (f : User → User) : List User → List User
  | [] => []
  | u :: us => if u.walletAddress == addr then f u :: us else u :: updateFirst addr f us

/-- The same, lifted to the whole store. -/
def findOneAndUpdate (addr : String) (f : User → User) (db : DB) : DB :=
  { db with users := updateFirst addr f db.users }

/-- `User.findOne({walletAddress: addr})`. -/
def findUser (addr : String) (us : List User) : Option User :=
  us.find? fun u => u.walletAddress == addr

/-- Shared skeleton of every employment-event handler in
eventListenerService.js:
`try { await ContractActivity.create(rec); <rest> } catch (e) { log }`.
A duplicate-key error from `create` is caught and the handler returns
with the store unchanged; otherwise the rest of the handler body runs. -/
def createThen (r : ActivityRecord) (post : DB → DB) (db : DB) : DB :=
  match activityCreate r db with
  | none => db
  | some db1 => post db1

/-- What `blockchainService.getContract` returns to the handlers (a read
of the ledger's `getContract` view, numbers already converted). -/
structure ContractData where
  id : Nat
  company : String
  talent : String
  jobTitle : String
  totalAmount : Nat
  status : Nat
  milestoneCount : Nat
deriving DecidableEq

/-- The ledger as seen through `blockchainService.getContract`. -/
def Ledger : Type := Nat → ContractData

/-- `handleContractCreated` (eventListenerService.js).  After the record
insert the handler awaits two separate `User.findOneAndUpdate` calls in
the same try block.  The first one sends
`$inc: { 'reputation.totalContracts': 1, 'reputation.totalSpent': totalAmount.toString() }`
for the company: `reputation.totalSpent` is `String`-typed in the `User`
schema (default the string `'0'`) and the `$inc` argument is a string,
so MongoDB rejects this update whenever a company profile matches; the
single-document update fails atomically (the `totalContracts` part dies
with it), the `catch` swallows the error, and the sequential talent
update never runs.  When no company profile matches, the update matches
nothing and succeeds as a no-op, and the talent update — a purely
numeric `$inc: { 'reputation.totalContracts': 1 }` on a `Number` path —
then updates the talent profile if one exists.  The net durable effect
on `users` is therefore: unchanged when a company profile exists,
otherwise the talent increment alone; it is confined to the `users`
field below.  `incFails = true` injects the first update rejecting
transiently (a store failure) instead; the live listener corresponds to
`incFails = false`. -/
def handleContractCreated (incFails : Bool) (contractId : Nat)
    (company talent : String) (totalAmount : Nat)
    (txHash : String) (blockNumber ts : Nat) (db : DB) : DB :=
  createThen
    { contractId := contractId, transactionHash := txHash, blockNumber := blockNumber
      eventType := .ContractCreated
      company := lower company, talent := lower talent
      initiator := some (lower company)
      milestoneIndex := none, amount := some totalAmount
      ipfsHash := none, reason := none
      timestamp := ts, processed := false }
    (fun db1 =>
      if incFails then db1
      else { db1 with users :=
        (if db1.users.any fun u => u.walletAddress == lower company then
          db1.users
        else
          updateFirst (lower talent)
            (fun u => { u with reputation :=
              { u.reputation with
                totalContracts := u.reputation.totalContracts + 1 } }) db1.users) })
    db

/-- `handleContractAccepted` (eventListenerService.js). -/
def handleContractAccepted (ledger : Ledger) (contractId : Nat) (talent : String)
    (txHash : String) (blockNumber ts : Nat) (db : DB) : DB :=
  let contractData := ledger contractId
  createThen
    { contractId := contractId, transactionHash := txHash, blockNumber := blockNumber
      eventType := .ContractAccepted
      company := lower contractData.company, talent := lower talent
      initiator := some (lower talent)
      milestoneIndex := none, amount := none, ipfsHash := none, reason := none
      timestamp := ts, processed := false }
    (fun db1 => db1)
    db

/-- `handleMilestoneSubmitted` (eventListenerService.js).  Note: the
handler performs no bounds check of `milestoneIndex` against the
agreement's milestone count, no retry and no quarantine. -/
def handleMilestoneSubmitted (ledger : Ledger) (contractId milestoneIndex : Nat)
    (txHash : String) (blockNumber ts : Nat) (db : DB) : DB :=
  let contractData := ledger contractId
  createThen
    { contractId := contractId, transactionHash := txHash, blockNumber := blockNumber
      eventType := .MilestoneSubmitted
      company := lower contractData.company, talent := lower contractData.talent
      initiator := some (lower contractData.talent)
      milestoneIndex := some milestoneIndex, amount := none
      ipfsHash := none, reason := none
      timestamp := ts, processed := false }
    (fun db1 => db1)
    db

/-- `handleMilestoneApproved` (eventListenerService.js). -/
def handleMilestoneApproved (ledger : Ledger) (contractId milestoneIndex : Nat)
    (txHash : String) (blockNumber ts : Nat) (db : DB) : DB :=
  let contractData := ledger contractId
  createThen
    { contractId := contractId, transactionHash := txHash, blockNumber := blockNumber
      eventType := .MilestoneApproved
      company := lower contractData.company, talent := lower contractData.talent
      initiator := some (lower contractData.company)
      milestoneIndex := some milestoneIndex, amount := none
      ipfsHash := none, reason := none
      timestamp := ts, processed := false }
    (fun db1 => db1)
    db

/-- `handleMilestonePaid` (eventListenerService.js).  After the record
insert the handler awaits a `User.findOneAndUpdate` sending
`$inc: { 'reputation.totalEarned': amount.toString() }` for the talent:
`reputation.totalEarned` is `String`-typed in the `User` schema (default
the string `'0'`) and the `$inc` argument is a string, so MongoDB
rejects the update whenever a talent profile matches (the `catch`
swallows the error) and it is a no-op when none matches — on every path
the `users` collection is unchanged and only the `ActivityRecord`
survives. -/
def handleMilestonePaid (ledger : Ledger) (contractId milestoneIndex amount : Nat)
    (txHash : String) (blockNumber ts : Nat) (db : DB) : DB :=
  let contractData := ledger contractId
  createThen
    { contractId := contractId, transactionHash := txHash, blockNumber := blockNumber
      eventType := .MilestonePaid
      company := lower contractData.company, talent := lower contractData.talent
      initiator := some (lower contractData.company)
      milestoneIndex := some milestoneIndex, amount := some amount
      ipfsHash := none, reason := none
      timestamp := ts, processed := false }
    (fun db1 => db1)
    db

/-- `handleContractCompleted` (eventListenerService.js); the record is
stored without an `initiator` field. -/
def handleContractCompleted (ledger : Ledger) (contractId : Nat)
    (txHash : String) (blockNumber ts : Nat) (db : DB) : DB :=
  let contractData := ledger contractId
  createThen
    { contractId := contractId, transactionHash := txHash, blockNumber := blockNumber
      eventType := .ContractCompleted
      company := lower contractData.company, talent := lower contractData.talent
      initiator := none
      milestoneIndex := none, amount := none, ipfsHash := none, reason := none
      timestamp := ts, processed := false }
    (fun db1 =>
      let db2 := findOneAndUpdate (lower contractData.company)
        (fun u => { u with reputation :=
          { u.reputation with completedContracts := u.reputation.completedContracts + 1 } }) db1
      findOneAndUpdate (lower contractData.talent)
        (fun u => { u with reputation :=
          { u.reputation with completedContracts := u.reputation.completedContracts + 1 } }) db2)
    db

/-- `handleContractDisputed` (eventListenerService.js). -/
def handleContractDisputed (ledger : Ledger) (contractId : Nat) (initiator : String)
    (txHash : String) (blockNumber ts : Nat) (db : DB) : DB :=
  let contractData := ledger contractId
  createThen
    { contractId := contractId, transactionHash := txHash, blockNumber := blockNumber
      eventType := .ContractDisputed
      company := lower contractData.company, talent := lower contractData.talent
      initiator := some (lower initiator)
      milestoneIndex := none, amount := none, ipfsHash := none, reason := none
      timestamp := ts, processed := false }
    (fun db1 =>
      let db2 := findOneAndUpdate (lower contractData.company)
        (fun u => { u with reputation :=
          { u.reputation with disputedContracts := u.reputation.disputedContracts + 1 } }) db1
      findOneAndUpdate (lower contractData.talent)
        (fun u => { u with reputation :=
          { u.reputation with disputedContracts := u.reputation.disputedContracts + 1 } }) db2)
    db

/-- `handleCredentialIssued` (eventListenerService.js): a `$push` of a
new entry onto the recipient's `credentials` array; no `ContractActivity`
record and no deduplication. -/
def handleCredentialIssued (tokenId : Nat) (issuer recipient skillName : String)
    (ts : Nat) (db : DB) : DB :=
  findOneAndUpdate (lower recipient)
    (fun u => { u with credentials := u.credentials ++
      [{ tokenId := tokenId, skillName := skillName
         issuer := lower issuer, issuedAt := ts }] }) db

/-- The closed set of notifications the listener registers handlers for
(`listenToEmploymentEvents` / `listenToCredentialEvents`). -/
inductive EventKind
  | contractCreated (contractId : Nat) (company talent : String) (totalAmount : Nat)
  | contractAccepted (contractId : Nat) (talent : String)
  | milestoneSubmitted (contractId milestoneIndex : Nat)
  | milestoneApproved (contractId milestoneIndex : Nat)
  | milestonePaid (contractId milestoneIndex amount : Nat)
  | contractCompleted (contractId : Nat)
  | contractDisputed (contractId : Nat) (initiator : String)
  | credentialIssued (tokenId : Nat) (issuer recipient skillName : String)
deriving DecidableEq

/-- A delivered notification: payload plus the metadata every handler
reads from the `event` object (`transactionHash`, `blockNumber`, the
containing block's timestamp). -/
structure Notification where
  ev : EventKind
  transactionHash : String
  blockNumber : Nat
  timestamp : Nat
deriving DecidableEq

/-- The per-type dispatch the listener wires up with `contract.on(...)`
(the spec's `reconcile(notification)` entry point). -/
def reconcile (ledger : Ledger) (n : Notification) (db : DB) : DB :=
  match n.ev with
  | .contractCreated cid c t amt =>
      handleContractCreated false cid c t amt n.transactionHash n.blockNumber n.timestamp db
  | .contractAccepted cid t =>
      handleContractAccepted ledger cid t n.transactionHash n.blockNumber n.timestamp db
  | .milestoneSubmitted cid idx =>
      handleMilestoneSubmitted ledger cid idx n.transactionHash n.blockNumber n.timestamp db
  | .milestoneApproved cid idx =>
      handleMilestoneApproved ledger cid idx n.transactionHash n.blockNumber n.timestamp db
  | .milestonePaid cid idx amt =>
      handleMilestonePaid ledger cid idx amt n.transactionHash n.blockNumber n.timestamp db
  | .contractCompleted cid =>
      handleContractCompleted ledger cid n.transactionHash n.blockNumber n.timestamp db
  | .contractDisputed cid ini =>
      handleContractDisputed ledger cid ini n.transactionHash n.blockNumber n.timestamp db
  | .credentialIssued tok iss rcpt sk =>
      handleCredentialIssued tok iss rcpt sk n.timestamp db

/-- Fold `reconcile` over a delivered sequence of notifications. -/
def processAll (ledger : Ledger) (ns : List Notification) (db : DB) : DB :=
  ns.foldl (fun d n => reconcile ledger n d) db

/-- `ContractActivity.findOne().sort({blockNumber: -1})`: block number of
the highest stored record, the durable watermark `syncPastEvents` resumes
from. -/
def lastProcessedBlock (db : DB) : Option Nat :=
  (db.activities.map (·.blockNumber)).max?

/-- `syncPastEvents` (eventListenerService.js): computes the replay range
from the durable watermark and queries the past events, but the
per-event loop body is empty (a comment only), so no handler runs and
the store is returned unchanged on every path. -/
def syncPastEvents (queryFilter : Nat → Nat → List Notification)
    (currentBlock : Nat) (db : DB) : DB :=
  let fromBlock := match lastProcessedBlock db with
    | some b => b + 1
    | none => 0
  let toBlock := min (fromBlock + 1000) currentBlock
  if fromBlock < toBlock then
    let _events := queryFilter fromBlock toBlock
    db
  else db

/-! ### Auth middleware (backend/src/middleware/auth.js) -/

/-- The wallet-address regex of the `User` schema validator and of
`ethers.isAddress`: `0x` followed by 40 hex digits. -/
def isValidAddress (s : String) : Bool :=
  s.length == 42 && s.data.take 2 == ['0', 'x'] &&
    (s.data.drop 2).all fun c => c.isDigit || "abcdefABCDEF".data.contains c

/-- The message the client signs, as built in both `generateNonce` and
`verifySignature` with the stored nonce spliced in. -/
def authMessage (nonce : String) : String :=
  "Welcome to Blockchain HR Platform!\n\nSign this message to authenticate with your wallet.\n\nNonce: " ++
    nonce ++
    "\n\nThis request will not trigger a blockchain transaction or cost any gas fees."

/-- Model of an ECDSA signature for `ethers.verifyMessage`: a signature
determines the one message it signs and the address it recovers to. -/
structure Sig where
  message : String
  signer : String
deriving DecidableEq

/-- `ethers.verifyMessage(message, signature)`: recovers the signer when
the signature is over exactly this message; on a mismatch the recovery
does not yield the signer (modelled as `none`, which the service's
`catch` maps to a failed verification). -/
def verifyMessage (message : String) (sig : Sig) : Option String :=
  if sig.message = message then some sig.signer else none

/-- `blockchainService.verifySignature(message, signature, expected)`:
compares the recovered address with the expected one, lower-cased;
any recovery error yields `false`. -/
def bcVerifySignature (message : String) (sig : Sig) (expectedAddress : String) : Bool :=
  match verifyMessage message sig with
  | some recovered => lower recovered == lower expectedAddress
  | none => false

/-- `exports.generateNonce`: validates the address, lower-cases it,
draws a fresh random nonce (`freshNonce` stands for
`crypto.randomBytes(16).toString('hex')`), then creates the user with
default role `talent` and zero reputation, or overwrites the existing
user's nonce.  Returns the nonce sent to the client (`none` = HTTP 400). -/
def generateNonce (freshNonce walletAddress : String) (db : DB) : Option String × DB :=
  if ¬ isValidAddress walletAddress then (none, db)
  else
    let normalizedAddress := lower walletAddress
    match findUser normalizedAddress db.users with
    | none =>
        let user : User :=
          { walletAddress := normalizedAddress, role := "talent"
            nonce := some freshNonce, lastLogin := none
            reputation := repZero, credentials := [] }
        (some freshNonce, { db with users := db.users ++ [user] })
    | some _ =>
        let us := updateFirst normalizedAddress
          (fun u => { u with nonce := some freshNonce }) db.users
        (some freshNonce, { db with users := us })

/-- The JWT payload issued by `exports.verifySignature`. -/
structure Token where
  walletAddress : String
  role : String
deriving DecidableEq

/-- HTTP response of the verify endpoint: status code plus token. -/
structure VerifyResponse where
  status : Nat
  token : Option Token
deriving DecidableEq

/-- `exports.verifySignature`: looks up the user and its stored nonce,
rebuilds the signed message around that nonce, verifies the signature,
and on success overwrites the nonce with a fresh random value
(`freshNonce`) and sets `lastLogin` before issuing the JWT.  Statuses
400/401/200 as in the source. -/
def verifySignatureRoute (freshNonce walletAddress : String) (signature : Sig)
    (now : Nat) (db : DB) : VerifyResponse × DB :=
  if walletAddress = "" then ({ status := 400, token := none }, db)
  else
    let normalizedAddress := lower walletAddress
    match findUser normalizedAddress db.users with
    | none => ({ status := 400, token := none }, db)
    | some user =>
      match user.nonce with
      | none => ({ status := 400, token := none }, db)
      | some n =>
        let message := authMessage n
        if ¬ bcVerifySignature message signature normalizedAddress then
          ({ status := 401, token := none }, db)
        else
          let us := updateFirst normalizedAddress
            (fun u => { u with nonce := some freshNonce, lastLogin := some now }) db.users
          ({ status := 200,
             token := some { walletAddress := normalizedAddress, role := user.role } },
           { db with users := us })

/-! ### Observation definitions over the store -/

/-- The uniqueness invariant of the `transactionHash` index: pairwise
distinct idempotency keys over the whole activity log. -/
@[reducible] def uniqueKeys (db : DB) : Prop :=
  (db.activities.map (·.transactionHash)).Nodup

/-- Notification types the listener persists as `ContractActivity`
records (every registered handler except `CredentialIssued`). -/
def persistsActivity : EventKind → Bool
  | .credentialIssued _ _ _ _ => false
  | _ => true

/-- The per-event-type reputation deltas the specification's fold
invariant prescribes for the profile of address `a` — the `$inc`
documents the handlers attempt to apply: `ContractCreated` increments
`totalContracts` for both parties and `totalSpent` (by the escrowed
amount) for the company; `MilestonePaid` increments `totalEarned` for
the talent; `ContractCompleted` and `ContractDisputed` increment their
counters for both parties; the other types carry no deltas.  (This is
the spec-side definition for the refinement claim; the live handlers
never apply the `totalSpent`/`totalEarned`/`totalContracts`-of-created
deltas, because the `$inc` against the `String`-typed money paths
rejects.) -/
def recDelta (a : String) (r : ActivityRecord) (rep : Reputation) : Reputation :=
  match r.eventType with
  | .ContractCreated =>
      let rep1 := if a == r.company then
        { rep with totalContracts := rep.totalContracts + 1
                   totalSpent := rep.totalSpent + r.amount.getD 0 } else rep
      if a == r.talent then { rep1 with totalContracts := rep1.totalContracts + 1 } else rep1
  | .MilestonePaid =>
      if a == r.talent then
        { rep with totalEarned := rep.totalEarned + r.amount.getD 0 } else rep
  | .ContractCompleted =>
      let rep1 := if a == r.company then
        { rep with completedContracts := rep.completedContracts + 1 } else rep
      if a == r.talent then
        { rep1 with completedContracts := rep1.completedContracts + 1 } else rep1
  | .ContractDisputed =>
      let rep1 := if a == r.company then
        { rep with disputedContracts := rep.disputedContracts + 1 } else rep
      if a == r.talent then
        { rep1 with disputedContracts := rep1.disputedContracts + 1 } else rep1
  | _ => rep

/-- Deterministic fold of the per-event-type deltas over an activity log,
for one address, starting from the schema-default (zero) counters. -/
def foldAgg (rs : List ActivityRecord) (a : String) : Reputation :=
  rs.foldl (fun rep r => recDelta a r rep) repZero

/-- Concrete ledger used by the closed counterexample theorems. -/
def exLedger : Ledger := fun _ =>
  { id := 0, company := "", talent := "", jobTitle := ""
    totalAmount := 0, status := 0, milestoneCount := 0 }

/-- A valid company address (`0x` + 40 hex digits, already lower case). -/
def exCompany : String := "0xaaaaaaaaaaaaaaaaaaaaaaaaaaaaaaaaaaaaaaaa"

/-- A valid talent address. -/
def exTalent : String := "0xbbbbbbbbbbbbbbbbbbbbbbbbbbbbbbbbbbbbbbbb"

/-- The empty store. -/
def exDb0 : DB := { activities := [], users := [] }

/-- A `ContractCreated` notification for agreement 1. -/
def exN1 : Notification :=
  { ev := .contractCreated 1 exCompany exTalent 100
    transactionHash := "0xt1", blockNumber := 5, timestamp := 99 }

/-- A `CredentialIssued` notification for the talent. -/
def exCredN : Notification :=
  { ev := .credentialIssued 1 exCompany exTalent "Solidity"
    transactionHash := "0xt2", blockNumber := 6, timestamp := 100 }

/-- A talent profile with schema-default counters. -/
def exTalentUser : User :=
  { walletAddress := exTalent, role := "talent", nonce := none
    lastLogin := none, reputation := repZero, credentials := [] }

/-- A company profile with schema-default counters (what `generateNonce`
creates lazily on first interaction). -/
def exCompanyUser : User :=
  { walletAddress := exCompany, role := "talent", nonce := some "n0"
    lastLogin := none, reputation := repZero, credentials := [] }

/-- Store holding only the talent profile. -/
def exDbT : DB := { activities := [], users := [exTalentUser] }

/-- Store holding both parties' profiles with schema-default (zero)
counters and string-`'0'` money fields, as `generateNonce` persists
them. -/
def exDbBoth : DB := { activities := [], users := [exCompanyUser, exTalentUser] }

/-- A `MilestonePaid` notification for milestone 0 of agreement 1,
paying 50 wei. -/
def exNPaid : Notification :=
  { ev := .milestonePaid 1 0 50
    transactionHash := "0xt9", blockNumber := 8, timestamp := 102 }

/-- Ledger for the out-of-bounds scenario: agreement 1 exists and has
exactly 2 milestones. -/
def exLedger2 : Ledger := fun cid =>
  if cid = 1 then
    { id := 1, company := exCompany, talent := exTalent, jobTitle := "Engineer"
      totalAmount := 100, status := 1, milestoneCount := 2 }
  else exLedger cid

/-- A `MilestoneSubmitted` notification whose milestone index 5 is out of
bounds for agreement 1's 2 milestones. -/
def exN5 : Notification :=
  { ev := .milestoneSubmitted 1 5
    transactionHash := "0xt5", blockNumber := 7, timestamp := 101 }

/-- A user who has requested a nonce (`"n1"`) and not yet authenticated. -/
def exAuthUser : User :=
  { walletAddress := exCompany, role := "talent", nonce := some "n1"
    lastLogin := none, reputation := repZero, credentials := [] }

/-- Store holding only that user. -/
def exAuthDb : DB := { activities := [], users := [exAuthUser] }

/-- A signature by the company's wallet over the auth message built
around nonce `"n1"`. -/
def exSig : Sig := { message := authMessage "n1", signer := exCompany }

end HRPlatform

/-!
### The on-chain state machine (contracts/contracts/EmploymentContract.sol)

Addresses are `Nat` (`0` is the zero address); the EVM guarantees
`msg.sender` is never the zero address, which enters the reachability
relation below.  `require(c, msg)` is an `if ¬ c then .error msg` early
return; a reverted transaction leaves the state unchanged.  External
value transfers (`.call{value: x}`) are recorded in a transfer log and
assumed to succeed.
-/

namespace EmploymentContract

/-- `enum ContractStatus`. -/
inductive ContractStatus
  | PENDING | ACTIVE | COMPLETED | DISPUTED | CANCELLED | FINALIZED
deriving DecidableEq

/-- `enum MilestoneStatus`. -/
inductive MilestoneStatus
  | PENDING | IN_PROGRESS | SUBMITTED | APPROVED | PAID
deriving DecidableEq

/-- `struct Milestone`. -/
structure Milestone where
  description : String
  amount : Nat
  deadline : Nat
  status : MilestoneStatus
  ipfsHash : String
deriving DecidableEq

/-- `struct Contract`. -/
structure Contract where
  id : Nat
  company : Nat
  talent : Nat
  jobTitle : String
  ipfsMetadata : String
  totalAmount : Nat
  startDate : Nat
  endDate : Nat
  status : ContractStatus
  milestones : List Milestone
  createdAt : Nat
  companyApproved : Bool
  talentApproved : Bool
deriving DecidableEq

/-- The all-defaults `Contract` a Solidity mapping returns for a key that
was never written. -/
def emptyContract : Contract :=
  { id := 0, company := 0, talent := 0, jobTitle := "", ipfsMetadata := ""
    totalAmount := 0, startDate := 0, endDate := 0, status := .PENDING
    milestones := [], createdAt := 0, companyApproved := false, talentApproved := false }

/-- The contract's storage. -/
structure EState where
  contractCounter : Nat
  contracts : Nat → Contract
  companyContracts : Nat → List Nat
  talentContracts : Nat → List Nat
  platformFeePercent : Nat
  platformWallet : Nat
  owner : Nat
  transfers : List (Nat × Nat)

/-- The constructor: `platformFeePercent = 2`, owner is the deployer. -/
def deploy (deployer platformWallet : Nat) : EState :=
  { contractCounter := 0, contracts := fun _ => emptyContract
    companyContracts := fun _ => [], talentContracts := fun _ => []
    platformFeePercent := 2, platformWallet := platformWallet
    owner := deployer, transfers := [] }

/-- Write one slot of the `contracts` mapping. -/
def setContract (s : EState) (cid : Nat) (c : Contract) : EState :=
  { s with contracts := fun j => if j = cid then c else s.contracts j }

/-- Write one milestone of one contract in place. -/
def setMilestone (s : EState) (cid idx : Nat) (m : Milestone) : EState :=
  setContract s cid
    { s.contracts cid with milestones := (s.contracts cid).milestones.set idx m }

/-- The milestone array built by the creation loop. -/
def buildMilestones : List String → List Nat → List Nat → List Milestone
  | d :: ds, a :: as_, dl :: dls =>
      { description := d, amount := a, deadline := dl
        status := .PENDING, ipfsHash := "" } :: buildMilestones ds as_ dls
  | _, _, _ => []

/-- `createContract` (payable; `value` is `msg.value`, `timestamp` is
`block.timestamp`). -/
def createContract (sender value talent : Nat) (jobTitle ipfsMetadata : String)
    (startDate endDate : Nat) (descs : List String) (amounts deadlines : List Nat)
    (timestamp : Nat) (s : EState) : Except String EState :=
  if talent = 0 then .error "Invalid talent address"
  else if talent = sender then .error "Cannot create contract with yourself"
  else if descs.length ≠ amounts.length then .error "Milestone arrays mismatch"
  else if descs.length ≠ deadlines.length then .error "Deadline arrays mismatch"
  else if descs.length = 0 then .error "Must have at least one milestone"
  else
    let totalAmount := amounts.foldl (· + ·) 0
    if value ≠ totalAmount then .error "Must send exact total amount to escrow"
    else
      let cid := s.contractCounter + 1
      let c : Contract :=
        { id := cid, company := sender, talent := talent
          jobTitle := jobTitle, ipfsMetadata := ipfsMetadata
          totalAmount := totalAmount, startDate := startDate, endDate := endDate
          status := .PENDING, milestones := buildMilestones descs amounts deadlines
          createdAt := timestamp, companyApproved := false, talentApproved := false }
      .ok { s with
        contractCounter := cid
        contracts := fun j => if j = cid then c else s.contracts j
        companyContracts := fun a =>
          if a = sender then s.companyContracts a ++ [cid] else s.companyContracts a
        talentContracts := fun a =>
          if a = talent then s.talentContracts a ++ [cid] else s.talentContracts a }

/-- `acceptContract`: modifiers `onlyTalent`, `inStatus(PENDING)`. -/
def acceptContract (sender cid : Nat) (s : EState) : Except String EState :=
  if (s.contracts cid).talent ≠ sender then .error "Only talent can perform this action"
  else if (s.contracts cid).status ≠ .PENDING then .error "Invalid contract status"
  else .ok (setContract s cid { s.contracts cid with status := .ACTIVE })

/-- `submitMilestone`: modifiers `onlyTalent`, `inStatus(ACTIVE)`;
requires a valid index and a PENDING or IN_PROGRESS milestone. -/
def submitMilestone (sender cid idx : Nat) (ipfsHash : String) (s : EState) :
    Except String EState :=
  if (s.contracts cid).talent ≠ sender then .error "Only talent can perform this action"
  else if (s.contracts cid).status ≠ .ACTIVE then .error "Invalid contract status"
  else
    match (s.contracts cid).milestones.get? idx with
    | none => .error "Invalid milestone index"
    | some m =>
      if ¬ (m.status = .PENDING ∨ m.status = .IN_PROGRESS) then
        .error "Milestone already submitted"
      else
        .ok (setMilestone s cid idx { m with status := .SUBMITTED, ipfsHash := ipfsHash })

/-- `_allMilestonesPaid`. -/
def allMilestonesPaid (cid : Nat) (s : EState) : Bool :=
  (s.contracts cid).milestones.all fun m => m.status == .PAID

/-- `_releaseMilestonePayment`: requires APPROVED, computes the 2%-style
platform fee split, marks the milestone PAID, transfers the talent
payment and the platform fee, and completes the contract when every
milestone is paid. -/
def releaseMilestonePayment (cid idx : Nat) (s : EState) : Except String EState :=
  match (s.contracts cid).milestones.get? idx with
  | none => .error "Invalid milestone index"
  | some m =>
    if m.status ≠ .APPROVED then .error "Milestone not approved"
    else
      let amount := m.amount
      let platformFee := amount * s.platformFeePercent / 100
      let talentPayment := amount - platformFee
      let s1 := setMilestone s cid idx { m with status := .PAID }
      let s2 := { s1 with transfers := s1.transfers ++
        [((s.contracts cid).talent, talentPayment), (s.platformWallet, platformFee)] }
      if allMilestonesPaid cid s2 then
        .ok (setContract s2 cid { s2.contracts cid with status := .COMPLETED })
      else .ok s2

/-- `approveMilestone`: modifiers `onlyCompany`, `inStatus(ACTIVE)`;
requires SUBMITTED, marks APPROVED, then auto-releases the payment. -/
def approveMilestone (sender cid idx : Nat) (s : EState) : Except String EState :=
  if (s.contracts cid).company ≠ sender then .error "Only company can perform this action"
  else if (s.contracts cid).status ≠ .ACTIVE then .error "Invalid contract status"
  else
    match (s.contracts cid).milestones.get? idx with
    | none => .error "Invalid milestone index"
    | some m =>
      if m.status ≠ .SUBMITTED then .error "Milestone not submitted"
      else
        releaseMilestonePayment cid idx (setMilestone s cid idx { m with status := .APPROVED })

/-- `raiseDispute`: modifier `onlyParties`; requires ACTIVE or COMPLETED. -/
def raiseDispute (sender cid : Nat) (s : EState) : Except String EState :=
  if ¬ ((s.contracts cid).company = sender ∨ (s.contracts cid).talent = sender) then
    .error "Only contract parties can perform this action"
  else if ¬ ((s.contracts cid).status = .ACTIVE ∨ (s.contracts cid).status = .COMPLETED) then
    .error "Cannot dispute in current status"
  else .ok (setContract s cid { s.contracts cid with status := .DISPUTED })

/-- `finalizeContract`: modifier `onlyParties`, `inStatus(COMPLETED)`;
sets the caller's approval flag and finalizes when both are set. -/
def finalizeContract (sender cid : Nat) (s : EState) : Except String EState :=
  if ¬ ((s.contracts cid).company = sender ∨ (s.contracts cid).talent = sender) then
    .error "Only contract parties can perform this action"
  else if (s.contracts cid).status ≠ .COMPLETED then .error "Invalid contract status"
  else
    let c := s.contracts cid
    let c1 := if sender = c.company then { c with companyApproved := true }
              else { c with talentApproved := true }
    if c1.companyApproved && c1.talentApproved then
      .ok (setContract s cid { c1 with status := .FINALIZED })
    else
      .ok (setContract s cid c1)

/-- `cancelContract`: modifier `onlyCompany`, `inStatus(PENDING)`;
refunds the escrow to the company. -/
def cancelContract (sender cid : Nat) (s : EState) : Except String EState :=
  if (s.contracts cid).company ≠ sender then .error "Only company can perform this action"
  else if (s.contracts cid).status ≠ .PENDING then .error "Invalid contract status"
  else
    let s1 := setContract s cid { s.contracts cid with status := .CANCELLED }
    .ok { s1 with transfers := s1.transfers ++
      [((s.contracts cid).company, (s.contracts cid).totalAmount)] }

/-- `setPlatformFee`: `onlyOwner`, at most 10%. -/
def setPlatformFee (sender newFeePercent : Nat) (s : EState) : Except String EState :=
  if s.owner ≠ sender then .error "Ownable: caller is not the owner"
  else if ¬ (newFeePercent ≤ 10) then .error "Fee too high"
  else .ok { s with platformFeePercent := newFeePercent }

/-- `setPlatformWallet`: `onlyOwner`, nonzero wallet. -/
def setPlatformWallet (sender newWallet : Nat) (s : EState) : Except String EState :=
  if s.owner ≠ sender then .error "Ownable: caller is not the owner"
  else if newWallet = 0 then .error "Invalid address"
  else .ok { s with platformWallet := newWallet }

/-- One external transaction against the contract. -/
inductive Tx
  | create (sender value talent : Nat) (jobTitle ipfsMetadata : String)
      (startDate endDate : Nat) (descs : List String) (amounts deadlines : List Nat)
  | accept (sender cid : Nat)
  | submit (sender cid idx : Nat) (ipfsHash : String)
  | approve (sender cid idx : Nat)
  | dispute (sender cid : Nat)
  | finalize (sender cid : Nat)
  | cancel (sender cid : Nat)
  | setFee (sender pct : Nat)
  | setWallet (sender w : Nat)
deriving DecidableEq

/-- `msg.sender` of a transaction. -/
def txSender : Tx → Nat
  | .create sender _ _ _ _ _ _ _ _ _ => sender
  | .accept sender _ => sender
  | .submit sender _ _ _ => sender
  | .approve sender _ _ => sender
  | .dispute sender _ => sender
  | .finalize sender _ => sender
  | .cancel sender _ => sender
  | .setFee sender _ => sender
  | .setWallet sender _ => sender

/-- Execute one transaction (`t` is `block.timestamp`). -/
def exec (tx : Tx) (t : Nat) (s : EState) : Except String EState :=
  match tx with
  | .create sender value talent jobTitle ipfsMetadata startDate endDate descs amounts deadlines =>
      createContract sender value talent jobTitle ipfsMetadata startDate endDate
        descs amounts deadlines t s
  | .accept sender cid => acceptContract sender cid s
  | .submit sender cid idx h => submitMilestone sender cid idx h s
  | .approve sender cid idx => approveMilestone sender cid idx s
  | .dispute sender cid => raiseDispute sender cid s
  | .finalize sender cid => finalizeContract sender cid s
  | .cancel sender cid => cancelContract sender cid s
  | .setFee sender pct => setPlatformFee sender pct s
  | .setWallet sender w => setPlatformWallet sender w s

/-- Chain-level semantics: a reverted transaction leaves storage
unchanged. -/
def applyTx (tx : Tx) (t : Nat) (s : EState) : EState :=
  match exec tx t s with
  | .ok s' => s'
  | .error _ => s

/-- States reachable from deployment through transactions whose sender is
not the zero address (an EVM guarantee). -/
inductive Reachable : EState → Prop
  | deployed (deployer platformWallet : Nat) : Reachable (deploy deployer platformWallet)
  | step {s s' : EState} (tx : Tx) (t : Nat) :
      Reachable s → txSender tx ≠ 0 → exec tx t s = .ok s' → Reachable s'

/-- The agreement-status transitions the specification allows, each tied
to the operation that produces it: unchanged, Pending→Active
(`acceptContract`), Pending→Cancelled (`cancelContract`),
Active→Completed (an `approveMilestone` that pays the last milestone),
Active→Disputed and Completed→Disputed (`raiseDispute`), and
Completed→Finalized (`finalizeContract` once both parties approved). -/
def contractStep (tx : Tx) (cid : Nat) (s s' : EState) : Prop :=
  (s'.contracts cid).status = (s.contracts cid).status
  ∨ ((s.contracts cid).status = .PENDING ∧ (s'.contracts cid).status = .ACTIVE ∧
      ∃ sd, tx = .accept sd cid)
  ∨ ((s.contracts cid).status = .PENDING ∧ (s'.contracts cid).status = .CANCELLED ∧
      ∃ sd, tx = .cancel sd cid)
  ∨ ((s.contracts cid).status = .ACTIVE ∧ (s'.contracts cid).status = .COMPLETED ∧
      (∃ sd idx, tx = .approve sd cid idx) ∧ allMilestonesPaid cid s' = true)
  ∨ ((s.contracts cid).status = .ACTIVE ∧ (s'.contracts cid).status = .DISPUTED ∧
      ∃ sd, tx = .dispute sd cid)
  ∨ ((s.contracts cid).status = .COMPLETED ∧ (s'.contracts cid).status = .DISPUTED ∧
      ∃ sd, tx = .dispute sd cid)
  ∨ ((s.contracts cid).status = .COMPLETED ∧ (s'.contracts cid).status = .FINALIZED ∧
      (∃ sd, tx = .finalize sd cid) ∧
      (s'.contracts cid).companyApproved = true ∧ (s'.contracts cid).talentApproved = true)

/-- Position of a milestone status along the forward chain
Pending → InProgress → Submitted → Approved → Paid. -/
def mrank : MilestoneStatus → Nat
  | .PENDING => 0
  | .IN_PROGRESS => 1
  | .SUBMITTED => 2
  | .APPROVED => 3
  | .PAID => 4

/-- Total value transferred to one address so far. -/
def sumPaidTo (w : Nat) (s : EState) : Nat :=
  ((s.transfers.filter fun p => p.1 == w).map fun p => p.2).sum

/-- Freshness invariant of reachable storage: the zero key and every key
above the counter still hold the never-written default contract. -/
def fresh (s : EState) : Prop :=
  ∀ cid, cid = 0 ∨ s.contractCounter < cid → s.contracts cid = emptyContract

/-- Concrete scenario: company `11`, talent `12`, platform wallet `7`,
one agreement with milestone amounts 1.0 and 2.0 ether. -/
def scnCompany : Nat := 11

/-- Talent address of the concrete scenario. -/
def scnTalent : Nat := 12

/-- Platform wallet of the concrete scenario. -/
def scnWallet : Nat := 7

/-- Deployed state of the concrete scenario. -/
def scnS0 : EState := deploy 9 scnWallet

/-- The creation transaction of the concrete scenario: total escrow
3.0 ether over milestones of 1.0 and 2.0 ether. -/
def scnCreateTx : Tx :=
  .create scnCompany 3000000000000000000 scnTalent "Engineer" "" 10 20
    ["m1", "m2"] [1000000000000000000, 2000000000000000000] [100, 200]

/-- After creation. -/
def scnS1 : EState := applyTx scnCreateTx 50 scnS0

/-- After the talent accepts. -/
def scnS2 : EState := applyTx (.accept scnTalent 1) 51 scnS1

/-- After milestone 0 is submitted. -/
def scnS3 : EState := applyTx (.submit scnTalent 1 0 "ipfs1") 52 scnS2

/-- After milestone 0 is approved and auto-paid. -/
def scnS4 : EState := applyTx (.approve scnCompany 1 0) 53 scnS3

/-- After milestone 1 is submitted. -/
def scnS5 : EState := applyTx (.submit scnTalent 1 1 "ipfs2") 54 scnS4

/-- After milestone 1 is approved and auto-paid: all milestones paid,
agreement completed. -/
def scnS6 : EState := applyTx (.approve scnCompany 1 1) 55 scnS5

/-- A state with milestone 0 of agreement 1 already APPROVED, for
exercising the internal payment release directly. -/
def scnRel : EState := setMilestone scnS3 1 0
  { description := "m1", amount := 1000000000000000000, deadline := 100
    status := .APPROVED, ipfsHash := "ipfs1" }

/-- The state after the payment release on `scnRel`. -/
def scnRelAfter : EState :=
  match releaseMilestonePayment 1 0 scnRel with
  | .ok s' => s'
  | .error _ => scnRel

end EmploymentContract


/-! ## Lemmas and claim theorems: backend reconciliation path -/

namespace HRPlatform

theorem createThen_of_dup (r : ActivityRecord) (post : DB → DB) (db : DB)
    (h : (db.activities.any fun x => x.transactionHash == r.transactionHash) = true) :
    createThen r post db = db := by
  unfold createThen activityCreate
  simp [h]

theorem createThen_of_new (r : ActivityRecord) (post : DB → DB) (db : DB)
    (h : (db.activities.any fun x => x.transactionHash == r.transactionHash) = false) :
    createThen r post db = post { db with activities := db.activities ++ [r] } := by
  unfold createThen activityCreate
  simp [h]

theorem createThen_idem (r : ActivityRecord) (post : DB → DB) (db : DB)
    (hp : ∀ d, (post d).activities = d.activities) :
    createThen r post (createThen r post db) = createThen r post db := by
  by_cases h : (db.activities.any fun x => x.transactionHash == r.transactionHash) = true
  · rw [createThen_of_dup r post db h, createThen_of_dup r post db h]
  · rw [createThen_of_new r post db (by simpa using h)]
    apply createThen_of_dup
    rw [hp]
    simp

theorem createThen_uniqueKeys (r : ActivityRecord) (post : DB → DB) (db : DB)
    (hp : ∀ d, (post d).activities = d.activities)
    (h : uniqueKeys db) : uniqueKeys (createThen r post db) := by
  by_cases hc : (db.activities.any fun x => x.transactionHash == r.transactionHash) = true
  · rw [createThen_of_dup r post db hc]; exact h
  · rw [createThen_of_new r post db (by simpa using hc)]
    unfold uniqueKeys at h ⊢
    rw [hp]
    simp only [List.map_append, List.map_cons, List.map_nil]
    rw [List.nodup_append]
    refine ⟨h, List.nodup_singleton _, ?_⟩
    intro a ha hb
    simp only [List.mem_singleton] at hb
    subst hb
    simp only [List.mem_map] at ha
    obtain ⟨x, hx, hxa⟩ := ha
    simp only [List.any_eq_true, not_exists, not_and, Bool.not_eq_true] at hc
    have := hc x hx
    rw [hxa] at this
    simp at this

end HRPlatform

namespace HRPlatform

/-- C1 (amended): for every notification of one of the employment-event
types — the ones the listener persists as `ContractActivity` records —
re-delivery is a no-op: `reconcile(N); reconcile(N)` leaves the durable
store identical to `reconcile(N)` alone (the unique `transactionHash`
index makes the second insert fail and the handler's catch skips the
aggregate updates), and the activity log keeps at most one record per
idempotency key.  (The `CredentialIssued` notification is excluded: its
handler `$push`es a credential entry with no deduplication, see the
counterexample.) -/
theorem c1_reconcile_idempotent (L : Ledger) (n : Notification) (db : DB)
    (hk : uniqueKeys db) (hpa : persistsActivity n.ev = true) :
    reconcile L n (reconcile L n db) = reconcile L n db ∧
    uniqueKeys (reconcile L n db) := by
  obtain ⟨ev, tx, bn, ts⟩ := n
  cases ev
  case credentialIssued tok iss rcpt sk => exact absurd hpa (by simp [persistsActivity])
  all_goals
    simp only [reconcile, handleContractCreated, handleContractAccepted,
      handleMilestoneSubmitted, handleMilestoneApproved, handleMilestonePaid,
      handleContractCompleted, handleContractDisputed]
  all_goals
    exact ⟨createThen_idem _ _ _ (fun d => rfl),
      createThen_uniqueKeys _ _ _ (fun d => rfl) hk⟩

/-- C1 counterexample: redelivering a `CredentialIssued` notification is
not a no-op against the durable store — the recipient's `credentials`
array receives a second copy of the entry. -/
theorem c1_counterexample :
    reconcile exLedger exCredN (reconcile exLedger exCredN exDbT) ≠
      reconcile exLedger exCredN exDbT := by decide

/-- C1 witness: the amended theorem applied to a concrete
`ContractCreated` notification over the empty store. -/
theorem c1_witness :
    reconcile exLedger exN1 (reconcile exLedger exN1 exDb0) = reconcile exLedger exN1 exDb0 ∧
    uniqueKeys (reconcile exLedger exN1 exDb0) :=
  c1_reconcile_idempotent exLedger exN1 exDb0 (by decide) (by decide)

end HRPlatform

namespace HRPlatform

/-- C3 (code bug): `syncPastEvents` never dispatches a fetched historical
notification — it is the identity on the durable store for every query
result and every current block — while the live dispatch (`reconcile`)
for the very same notification does produce an ActivityRecord. -/
theorem c3_sync_dispatches_nothing :
    (∀ (queryFilter : Nat → Nat → List Notification) (currentBlock : Nat) (db : DB),
      syncPastEvents queryFilter currentBlock db = db) ∧
    (reconcile exLedger exN1 exDb0).activities.length = 1 := by
  constructor
  · intro q cb db
    unfold syncPastEvents
    split <;> simp
  · decide

/-- C5 (code bug): a `MilestoneSubmitted` notification with milestone
index 5 for an agreement the ledger reports as having 2 milestones is
not retried or quarantined: `handleMilestoneSubmitted` records it as an
ordinary, unflagged ActivityRecord (the schema has no fault flag at all)
with `milestoneIndex = 5`, and no other durable state changes. -/
theorem c5_out_of_bounds_recorded_unflagged :
    (reconcile exLedger2 exN5 exDb0).activities =
      [{ contractId := 1, transactionHash := "0xt5", blockNumber := 7
         eventType := .MilestoneSubmitted
         company := exCompany, talent := exTalent
         initiator := some exTalent
         milestoneIndex := some 5, amount := none, ipfsHash := none, reason := none
         timestamp := 101, processed := false }] ∧
    (exLedger2 1).milestoneCount = 2 ∧
    (reconcile exLedger2 exN5 exDb0).users = exDb0.users := by
  decide

end HRPlatform

namespace HRPlatform

/-- C4 (code bug): the aggregate counters do not equal the fold of the
per-event-type deltas over the stored ActivityRecords, and replay cannot
reproduce them, because the money increments never happen.  Processing a
`ContractCreated` notification while both parties' profiles exist with
schema-default counters stores the record but changes no profile: the
`$inc` against the `String`-typed `reputation.totalSpent` (stored as the
string `'0'`) is rejected by MongoDB, the catch swallows the error and
the talent's `totalContracts` update is skipped with it — while the fold
of the claim's deltas over the stored log gives `totalContracts = 1` and
`totalSpent = 100` for the company.  Likewise a `MilestonePaid`
notification over an existing talent profile leaves `totalEarned` at 0
while the fold gives the paid amount. -/
theorem c4_fold_equivalence_broken :
    ((reconcile exLedger exN1 exDbBoth).activities.length = 1 ∧
     (reconcile exLedger exN1 exDbBoth).users = exDbBoth.users ∧
     (foldAgg (reconcile exLedger exN1 exDbBoth).activities exCompany).totalContracts = 1 ∧
     (foldAgg (reconcile exLedger exN1 exDbBoth).activities exCompany).totalSpent = 100) ∧
    ((reconcile exLedger2 exNPaid exDbT).activities.length = 1 ∧
     (reconcile exLedger2 exNPaid exDbT).users = exDbT.users ∧
     (foldAgg (reconcile exLedger2 exNPaid exDbT).activities exTalent).totalEarned = 50) := by
  decide

end HRPlatform

namespace HRPlatform

theorem authMessage_ne {n1 n2 : String} (h : n1 ≠ n2) :
    authMessage n1 ≠ authMessage n2 := by
  intro he
  apply h
  unfold authMessage at he
  have hd := congrArg String.data he
  simp only [String.data_append] at hd
  have h1 := List.append_cancel_right hd
  have h2 := List.append_cancel_left h1
  exact String.ext h2

theorem findUser_updateFirst (addr : String) (f : User → User) (us : List User)
    (hf : ∀ u, (f u).walletAddress = u.walletAddress) :
    findUser addr (updateFirst addr f us) = (findUser addr us).map f := by
  induction us with
  | nil => rfl
  | cons u rest ih =>
    unfold updateFirst findUser
    by_cases h : (u.walletAddress == addr) = true
    · simp [List.find?, h, hf]
    · simp only [h, if_false, Bool.false_eq_true, List.find?]
      unfold findUser at ih
      simp [h, ih]

/-- C10: a successful `verifySignature` call consumes the stored nonce —
it overwrites it with the fresh random value before issuing the JWT —
and replaying the very same signature afterwards is rejected with 401,
provided the fresh nonce differs from the consumed one (the signature
binds the old message, whose nonce no longer matches the stored one). -/
theorem c10_signature_replay_rejected (db : DB) (wallet n1 n2 n3 : String) (sig : Sig)
    (t1 t2 : Nat)
    (hn : (findUser (lower wallet) db.users).bind (fun u => u.nonce) = some n1)
    (hok : (verifySignatureRoute n2 wallet sig t1 db).1.status = 200)
    (hne : n2 ≠ n1) :
    ((findUser (lower wallet) ((verifySignatureRoute n2 wallet sig t1 db).2).users).bind
        (fun u => u.nonce) = some n2) ∧
    (verifySignatureRoute n3 wallet sig t2 (verifySignatureRoute n2 wallet sig t1 db).2).1.status
      = 401 := by
  cases hfind : findUser (lower wallet) db.users with
  | none => rw [hfind] at hn; exact absurd hn (by simp)
  | some u =>
    rw [hfind] at hn
    simp only [Option.some_bind] at hn
    by_cases hw : wallet = ""
    · rw [verifySignatureRoute, if_pos hw] at hok
      exact absurd hok (by simp)
    · by_cases hv : bcVerifySignature (authMessage n1) sig (lower wallet) = true
      · have hr1 : verifySignatureRoute n2 wallet sig t1 db =
            ({ status := 200, token := some { walletAddress := lower wallet, role := u.role } },
             { db with users :=
                (updateFirst (lower wallet)
                  (fun x => { x with nonce := some n2, lastLogin := some t1 }) db.users) }) := by
          simp [verifySignatureRoute, if_neg hw, hfind, hn, hv]
        have hmsg : sig.message = authMessage n1 := by
          by_cases hm : sig.message = authMessage n1
          · exact hm
          · exfalso
            unfold bcVerifySignature verifyMessage at hv
            rw [if_neg hm] at hv
            simp at hv
        constructor
        · rw [hr1]
          simp only
          rw [findUser_updateFirst (lower wallet)
                (fun x => { x with nonce := some n2, lastLogin := some t1 }) db.users
                (fun x => rfl), hfind]
          rfl
        · rw [hr1]
          have hfind2 : findUser (lower wallet)
              (updateFirst (lower wallet)
                (fun x => { x with nonce := some n2, lastLogin := some t1 }) db.users) =
              some { u with nonce := some n2, lastLogin := some t1 } := by
            rw [findUser_updateFirst (lower wallet)
                  (fun x => { x with nonce := some n2, lastLogin := some t1 }) db.users
                  (fun x => rfl), hfind]
            rfl
          have hv2 : bcVerifySignature (authMessage n2) sig (lower wallet) = false := by
            unfold bcVerifySignature verifyMessage
            rw [if_neg]
            rw [hmsg]
            exact authMessage_ne (Ne.symm hne)
          simp [verifySignatureRoute, if_neg hw, hfind2, hv2]
      · rw [verifySignatureRoute, if_neg hw] at hok
        simp [hfind, hn, hv] at hok

set_option maxRecDepth 4000 in
/-- C10 witness: the theorem at a concrete user, nonce and signature. -/
theorem c10_witness :
    ((findUser (lower exCompany)
        ((verifySignatureRoute "n2" exCompany exSig 1 exAuthDb).2).users).bind
        (fun u => u.nonce) = some "n2") ∧
    (verifySignatureRoute "n3" exCompany exSig 2
        (verifySignatureRoute "n2" exCompany exSig 1 exAuthDb).2).1.status = 401 :=
  c10_signature_replay_rejected exAuthDb exCompany "n1" "n2" "n3" exSig 1 2
    (by decide) (by decide) (by decide)

end HRPlatform

/-! ## Lemmas and claim theorems: the on-chain state machine -/

namespace EmploymentContract

theorem acceptContract_ok {sender cid : Nat} {s s' : EState}
    (h : acceptContract sender cid s = .ok s') :
    (s.contracts cid).talent = sender ∧ (s.contracts cid).status = .PENDING ∧
    s' = setContract s cid { s.contracts cid with status := .ACTIVE } := by
  unfold acceptContract at h
  by_cases h1 : (s.contracts cid).talent ≠ sender
  · rw [if_pos h1] at h; exact absurd h (by simp)
  rw [if_neg h1] at h
  by_cases h2 : (s.contracts cid).status ≠ .PENDING
  · rw [if_pos h2] at h; exact absurd h (by simp)
  rw [if_neg h2] at h
  exact ⟨not_not.mp h1, not_not.mp h2, (Except.ok.inj h).symm⟩

theorem cancelContract_ok {sender cid : Nat} {s s' : EState}
    (h : cancelContract sender cid s = .ok s') :
    (s.contracts cid).company = sender ∧ (s.contracts cid).status = .PENDING ∧
    s' = { setContract s cid { s.contracts cid with status := .CANCELLED } with
           transfers := s.transfers ++
             [((s.contracts cid).company, (s.contracts cid).totalAmount)] } := by
  unfold cancelContract at h
  by_cases h1 : (s.contracts cid).company ≠ sender
  · rw [if_pos h1] at h; exact absurd h (by simp)
  rw [if_neg h1] at h
  by_cases h2 : (s.contracts cid).status ≠ .PENDING
  · rw [if_pos h2] at h; exact absurd h (by simp)
  rw [if_neg h2] at h
  exact ⟨not_not.mp h1, not_not.mp h2, (Except.ok.inj h).symm⟩

theorem raiseDispute_ok {sender cid : Nat} {s s' : EState}
    (h : raiseDispute sender cid s = .ok s') :
    ((s.contracts cid).company = sender ∨ (s.contracts cid).talent = sender) ∧
    ((s.contracts cid).status = .ACTIVE ∨ (s.contracts cid).status = .COMPLETED) ∧
    s' = setContract s cid { s.contracts cid with status := .DISPUTED } := by
  unfold raiseDispute at h
  by_cases h1 : ¬((s.contracts cid).company = sender ∨ (s.contracts cid).talent = sender)
  · rw [if_pos h1] at h; exact absurd h (by simp)
  rw [if_neg h1] at h
  by_cases h2 : ¬((s.contracts cid).status = .ACTIVE ∨ (s.contracts cid).status = .COMPLETED)
  · rw [if_pos h2] at h; exact absurd h (by simp)
  rw [if_neg h2] at h
  exact ⟨not_not.mp h1, not_not.mp h2, (Except.ok.inj h).symm⟩

theorem finalizeContract_ok {sender cid : Nat} {s s' : EState}
    (h : finalizeContract sender cid s = .ok s') :
    ((s.contracts cid).company = sender ∨ (s.contracts cid).talent = sender) ∧
    (s.contracts cid).status = .COMPLETED ∧
    ∃ c1 : Contract,
      s' = setContract s cid c1 ∧
      c1.milestones = (s.contracts cid).milestones ∧
      c1.totalAmount = (s.contracts cid).totalAmount ∧
      (c1.status = .COMPLETED ∨
        (c1.status = .FINALIZED ∧ c1.companyApproved = true ∧ c1.talentApproved = true)) := by
  unfold finalizeContract at h
  by_cases h1 : ¬((s.contracts cid).company = sender ∨ (s.contracts cid).talent = sender)
  · rw [if_pos h1] at h; exact absurd h (by simp)
  rw [if_neg h1] at h
  by_cases h2 : (s.contracts cid).status ≠ .COMPLETED
  · rw [if_pos h2] at h; exact absurd h (by simp)
  rw [if_neg h2] at h
  refine ⟨not_not.mp h1, not_not.mp h2, ?_⟩
  dsimp only at h
  by_cases hs : sender = (s.contracts cid).company
  · rw [if_pos hs] at h
    split at h
    · rename_i hcc
      exact ⟨_, (Except.ok.inj h).symm, rfl, rfl,
        Or.inr ⟨rfl, rfl, by simpa using hcc⟩⟩
    · exact ⟨_, (Except.ok.inj h).symm, rfl, rfl, Or.inl (not_not.mp h2)⟩
  · rw [if_neg hs] at h
    split at h
    · rename_i hcc
      exact ⟨_, (Except.ok.inj h).symm, rfl, rfl,
        Or.inr ⟨rfl, by simpa using hcc, rfl⟩⟩
    · exact ⟨_, (Except.ok.inj h).symm, rfl, rfl, Or.inl (not_not.mp h2)⟩

theorem submitMilestone_ok {sender cid idx : Nat} {ipfsHash : String} {s s' : EState}
    (h : submitMilestone sender cid idx ipfsHash s = .ok s') :
    ∃ m, (s.contracts cid).milestones.get? idx = some m ∧
      (s.contracts cid).talent = sender ∧ (s.contracts cid).status = .ACTIVE ∧
      (m.status = .PENDING ∨ m.status = .IN_PROGRESS) ∧
      s' = setMilestone s cid idx { m with status := .SUBMITTED, ipfsHash := ipfsHash } := by
  unfold submitMilestone at h
  by_cases h1 : (s.contracts cid).talent ≠ sender
  · rw [if_pos h1] at h; exact absurd h (by simp)
  rw [if_neg h1] at h
  by_cases h2 : (s.contracts cid).status ≠ .ACTIVE
  · rw [if_pos h2] at h; exact absurd h (by simp)
  rw [if_neg h2] at h
  split at h
  · exact absurd h (by simp)
  · rename_i m hm
    by_cases h3 : ¬(m.status = .PENDING ∨ m.status = .IN_PROGRESS)
    · rw [if_pos h3] at h; exact absurd h (by simp)
    rw [if_neg h3] at h
    exact ⟨m, hm, not_not.mp h1, not_not.mp h2, not_not.mp h3, (Except.ok.inj h).symm⟩

theorem setPlatformFee_ok {sender pct : Nat} {s s' : EState}
    (h : setPlatformFee sender pct s = .ok s') :
    s' = { s with platformFeePercent := pct } := by
  unfold setPlatformFee at h
  by_cases h1 : s.owner ≠ sender
  · rw [if_pos h1] at h; exact absurd h (by simp)
  rw [if_neg h1] at h
  by_cases h2 : ¬(pct ≤ 10)
  · rw [if_pos h2] at h; exact absurd h (by simp)
  rw [if_neg h2] at h
  exact (Except.ok.inj h).symm

theorem setPlatformWallet_ok {sender w : Nat} {s s' : EState}
    (h : setPlatformWallet sender w s = .ok s') :
    s' = { s with platformWallet := w } := by
  unfold setPlatformWallet at h
  by_cases h1 : s.owner ≠ sender
  · rw [if_pos h1] at h; exact absurd h (by simp)
  rw [if_neg h1] at h
  by_cases h2 : w = 0
  · rw [if_pos h2] at h; exact absurd h (by simp)
  rw [if_neg h2] at h
  exact (Except.ok.inj h).symm

end EmploymentContract

namespace EmploymentContract

theorem releaseMilestonePayment_ok {cid idx : Nat} {s s' : EState}
    (h : releaseMilestonePayment cid idx s = .ok s') :
    ∃ m, (s.contracts cid).milestones.get? idx = some m ∧ m.status = .APPROVED ∧
      (let s2 : EState :=
        { setMilestone s cid idx { m with status := .PAID } with
          transfers := s.transfers ++
            [((s.contracts cid).talent, m.amount - m.amount * s.platformFeePercent / 100),
             (s.platformWallet, m.amount * s.platformFeePercent / 100)] }
       (allMilestonesPaid cid s2 = true ∧
          s' = setContract s2 cid { s2.contracts cid with status := .COMPLETED }) ∨
       (allMilestonesPaid cid s2 = false ∧ s' = s2)) := by
  unfold releaseMilestonePayment at h
  split at h
  · exact absurd h (by simp)
  · rename_i m hm
    by_cases h1 : m.status ≠ .APPROVED
    · rw [if_pos h1] at h; exact absurd h (by simp)
    rw [if_neg h1] at h
    refine ⟨m, hm, not_not.mp h1, ?_⟩
    dsimp only at h ⊢
    split at h
    · rename_i hall
      exact Or.inl ⟨hall, (Except.ok.inj h).symm⟩
    · rename_i hall
      exact Or.inr ⟨by simpa using hall, (Except.ok.inj h).symm⟩

theorem approveMilestone_ok {sender cid idx : Nat} {s s' : EState}
    (h : approveMilestone sender cid idx s = .ok s') :
    ∃ m, (s.contracts cid).milestones.get? idx = some m ∧
      (s.contracts cid).company = sender ∧ (s.contracts cid).status = .ACTIVE ∧
      m.status = .SUBMITTED ∧
      releaseMilestonePayment cid idx
        (setMilestone s cid idx { m with status := .APPROVED }) = .ok s' := by
  unfold approveMilestone at h
  by_cases h1 : (s.contracts cid).company ≠ sender
  · rw [if_pos h1] at h; exact absurd h (by simp)
  rw [if_neg h1] at h
  by_cases h2 : (s.contracts cid).status ≠ .ACTIVE
  · rw [if_pos h2] at h; exact absurd h (by simp)
  rw [if_neg h2] at h
  split at h
  · exact absurd h (by simp)
  · rename_i m hm
    by_cases h3 : m.status ≠ .SUBMITTED
    · rw [if_pos h3] at h; exact absurd h (by simp)
    rw [if_neg h3] at h
    exact ⟨m, hm, not_not.mp h1, not_not.mp h2, not_not.mp h3, h⟩

theorem createContract_ok {sender value talent : Nat} {jobTitle ipfsMetadata : String}
    {startDate endDate : Nat} {descs : List String} {amounts deadlines : List Nat}
    {t : Nat} {s s' : EState}
    (h : createContract sender value talent jobTitle ipfsMetadata startDate endDate
      descs amounts deadlines t s = .ok s') :
    talent ≠ 0 ∧ talent ≠ sender ∧ descs.length = amounts.length ∧
    descs.length = deadlines.length ∧ descs.length ≠ 0 ∧
    value = amounts.foldl (· + ·) 0 ∧
    s' = { s with
      contractCounter := s.contractCounter + 1
      contracts := fun j => if j = s.contractCounter + 1 then
        { id := s.contractCounter + 1, company := sender, talent := talent
          jobTitle := jobTitle, ipfsMetadata := ipfsMetadata
          totalAmount := amounts.foldl (· + ·) 0
          startDate := startDate, endDate := endDate
          status := .PENDING, milestones := buildMilestones descs amounts deadlines
          createdAt := t, companyApproved := false, talentApproved := false }
        else s.contracts j
      companyContracts := fun a =>
        if a = sender then s.companyContracts a ++ [s.contractCounter + 1]
        else s.companyContracts a
      talentContracts := fun a =>
        if a = talent then s.talentContracts a ++ [s.contractCounter + 1]
        else s.talentContracts a } := by
  unfold createContract at h
  by_cases h1 : talent = 0
  · rw [if_pos h1] at h; exact absurd h (by simp)
  rw [if_neg h1] at h
  by_cases h2 : talent = sender
  · rw [if_pos h2] at h; exact absurd h (by simp)
  rw [if_neg h2] at h
  by_cases h3 : descs.length ≠ amounts.length
  · rw [if_pos h3] at h; exact absurd h (by simp)
  rw [if_neg h3] at h
  by_cases h4 : descs.length ≠ deadlines.length
  · rw [if_pos h4] at h; exact absurd h (by simp)
  rw [if_neg h4] at h
  by_cases h5 : descs.length = 0
  · rw [if_pos h5] at h; exact absurd h (by simp)
  rw [if_neg h5] at h
  dsimp only at h
  by_cases h6 : value ≠ amounts.foldl (· + ·) 0
  · rw [if_pos h6] at h; exact absurd h (by simp)
  rw [if_neg h6] at h
  exact ⟨h1, h2, not_not.mp h3, not_not.mp h4, h5, not_not.mp h6, (Except.ok.inj h).symm⟩

end EmploymentContract

namespace EmploymentContract

theorem setContract_ne (s : EState) (cid : Nat) (c : Contract) {j : Nat} (h : j ≠ cid) :
    (setContract s cid c).contracts j = s.contracts j := by
  simp [setContract, h]

theorem setContract_eq (s : EState) (cid : Nat) (c : Contract) :
    (setContract s cid c).contracts cid = c := by
  simp [setContract]

theorem nonempty_of_company {s : EState} {cid : Nat}
    (h : (s.contracts cid).company ≠ 0) : s.contracts cid ≠ emptyContract :=
  fun he => h (by rw [he]; rfl)

theorem nonempty_of_talent {s : EState} {cid : Nat}
    (h : (s.contracts cid).talent ≠ 0) : s.contracts cid ≠ emptyContract :=
  fun he => h (by rw [he]; rfl)

theorem fresh_setContract {s : EState} (ih : fresh s) {cid0 : Nat} {c : Contract}
    (hne : s.contracts cid0 ≠ emptyContract) :
    fresh (setContract s cid0 c) := by
  intro cid hcid
  have hcid' : cid = 0 ∨ s.contractCounter < cid := hcid
  by_cases he : cid = cid0
  · subst he
    exact absurd (ih cid hcid') hne
  · rw [setContract_ne s cid0 c he]
    exact ih cid hcid'

theorem reachable_fresh {s : EState} (hr : Reachable s) : fresh s := by
  induction hr with
  | deployed d w => intro cid _; rfl
  | @step s0 s1 tx t hprev hs hok ih =>
    cases tx with
    | create sender value talent jt im sd ed ds as_ dl =>
      obtain ⟨-, -, -, -, -, -, rfl⟩ := createContract_ok hok
      intro cid hcid
      dsimp only at hcid ⊢
      have hne : cid ≠ s0.contractCounter + 1 := by omega
      rw [if_neg hne]
      exact ih cid (by omega)
    | accept sender cid0 =>
      obtain ⟨ht, -, rfl⟩ := acceptContract_ok hok
      exact fresh_setContract ih (nonempty_of_talent (fun h0 => hs (ht.symm.trans h0)))
    | submit sender cid0 idx ipfs =>
      obtain ⟨m, -, ht, -, -, rfl⟩ := submitMilestone_ok hok
      exact fresh_setContract ih (nonempty_of_talent (fun h0 => hs (ht.symm.trans h0)))
    | approve sender cid0 idx =>
      obtain ⟨m, -, hcomp, -, -, hrel⟩ := approveMilestone_ok hok
      obtain ⟨m2, -, -, hshape⟩ := releaseMilestonePayment_ok hrel
      have hsc : sender ≠ 0 := hs
      have hne : s0.contracts cid0 ≠ emptyContract :=
        nonempty_of_company (fun h0 => hsc (hcomp.symm.trans h0))
      have hf1 : fresh (setMilestone s0 cid0 idx { m with status := .APPROVED }) :=
        fresh_setContract ih hne
      have hcomp1 : ((setMilestone s0 cid0 idx
          { m with status := .APPROVED }).contracts cid0).company = sender := by
        simp only [setMilestone, setContract_eq]
        exact hcomp
      have hne1 : (setMilestone s0 cid0 idx
          { m with status := .APPROVED }).contracts cid0 ≠ emptyContract :=
        nonempty_of_company (fun h0 => hsc (hcomp1.symm.trans h0))
      have hf2 : fresh (setMilestone (setMilestone s0 cid0 idx
          { m with status := .APPROVED }) cid0 idx { m2 with status := .PAID }) :=
        fresh_setContract hf1 hne1
      have hcomp2 : ((setMilestone (setMilestone s0 cid0 idx
          { m with status := .APPROVED }) cid0 idx
          { m2 with status := .PAID }).contracts cid0).company = sender := by
        simp only [setMilestone, setContract_eq]
        exact hcomp
      dsimp only at hshape
      rcases hshape with ⟨-, rfl⟩ | ⟨-, rfl⟩
      · exact fresh_setContract hf2
          (nonempty_of_company (fun h0 => hsc (hcomp2.symm.trans h0)))
      · exact hf2
    | dispute sender cid0 =>
      obtain ⟨hp, -, rfl⟩ := raiseDispute_ok hok
      apply fresh_setContract ih
      rcases hp with hc | ht
      · exact nonempty_of_company (fun h0 => hs (hc.symm.trans h0))
      · exact nonempty_of_talent (fun h0 => hs (ht.symm.trans h0))
    | finalize sender cid0 =>
      obtain ⟨hp, -, c1, rfl, -⟩ := finalizeContract_ok hok
      apply fresh_setContract ih
      rcases hp with hc | ht
      · exact nonempty_of_company (fun h0 => hs (hc.symm.trans h0))
      · exact nonempty_of_talent (fun h0 => hs (ht.symm.trans h0))
    | cancel sender cid0 =>
      obtain ⟨hc, -, rfl⟩ := cancelContract_ok hok
      exact fresh_setContract ih (nonempty_of_company (fun h0 => hs (hc.symm.trans h0)))
    | setFee sender pct =>
      obtain rfl := setPlatformFee_ok hok
      exact ih
    | setWallet sender w =>
      obtain rfl := setPlatformWallet_ok hok
      exact ih

end EmploymentContract

namespace EmploymentContract

theorem setMilestone_contracts (s : EState) (cid idx : Nat) (m : Milestone) (j : Nat) :
    (setMilestone s cid idx m).contracts j =
      if j = cid then { s.contracts cid with
        milestones := (s.contracts cid).milestones.set idx m } else s.contracts j := by
  unfold setMilestone
  by_cases he : j = cid
  · subst he; rw [setContract_eq, if_pos rfl]
  · rw [setContract_ne _ _ _ he, if_neg he]

theorem setMilestone_status (s : EState) (cid idx : Nat) (m : Milestone) (j : Nat) :
    ((setMilestone s cid idx m).contracts j).status = (s.contracts j).status := by
  rw [setMilestone_contracts]
  by_cases he : j = cid
  · subst he; rw [if_pos rfl]
  · rw [if_neg he]

/-- C6: in every reachable ledger state, an agreement's status only ever
changes along the allowed arrows, each produced by its operation:
Pending→Active (`acceptContract`), Pending→Cancelled (`cancelContract`),
Active→Completed (an `approveMilestone` after which every milestone is
paid), Active→Disputed and Completed→Disputed (`raiseDispute`), and
Completed→Finalized (`finalizeContract` with both approvals); every
other transaction leaves the status unchanged. -/
theorem c6_agreement_transitions (s : EState) (tx : Tx) (t cid : Nat)
    (hr : Reachable s) (hs : txSender tx ≠ 0) :
    contractStep tx cid s (applyTx tx t s) := by
  have hf : fresh s := reachable_fresh hr
  unfold contractStep applyTx
  cases hex : exec tx t s with
  | error e => exact Or.inl rfl
  | ok s' =>
    cases tx with
    | create sender value talent jt im sd ed ds as_ dl =>
      obtain ⟨-, -, -, -, -, -, rfl⟩ := createContract_ok hex
      left
      dsimp only
      by_cases he : cid = s.contractCounter + 1
      · rw [if_pos he]
        have hemp : s.contracts cid = emptyContract := by
          apply hf cid
          right
          omega
        rw [hemp]
        rfl
      · rw [if_neg he]
    | accept sender cid0 =>
      obtain ⟨ht, hst, rfl⟩ := acceptContract_ok hex
      by_cases he : cid = cid0
      · subst he
        right; left
        exact ⟨hst, by rw [setContract_eq], ⟨sender, rfl⟩⟩
      · left
        rw [setContract_ne _ _ _ he]
    | submit sender cid0 idx ipfs =>
      obtain ⟨m, -, -, -, -, rfl⟩ := submitMilestone_ok hex
      left
      rw [setMilestone_status]
    | approve sender cid0 idx =>
      obtain ⟨m, -, hcomp, hstA, -, hrel⟩ := approveMilestone_ok hex
      obtain ⟨m2, -, -, hshape⟩ := releaseMilestonePayment_ok hrel
      dsimp only at hshape
      by_cases he : cid = cid0
      · subst he
        rcases hshape with ⟨hall, rfl⟩ | ⟨hall, rfl⟩
        · right; right; right; left
          refine ⟨hstA, by simp [setContract_eq], ⟨sender, idx, rfl⟩, ?_⟩
          unfold allMilestonesPaid at hall ⊢
          simp only [setContract_eq]
          exact hall
        · left
          simp only [setMilestone_status]
      · rcases hshape with ⟨hall, rfl⟩ | ⟨hall, rfl⟩
        · left
          rw [setContract_ne _ _ _ he]
          simp only [setMilestone_status]
        · left
          simp only [setMilestone_status]
    | dispute sender cid0 =>
      obtain ⟨hp, hst, rfl⟩ := raiseDispute_ok hex
      by_cases he : cid = cid0
      · subst he
        rcases hst with hA | hC
        · right; right; right; right; left
          exact ⟨hA, by rw [setContract_eq], ⟨sender, rfl⟩⟩
        · right; right; right; right; right; left
          exact ⟨hC, by rw [setContract_eq], ⟨sender, rfl⟩⟩
      · left
        rw [setContract_ne _ _ _ he]
    | finalize sender cid0 =>
      obtain ⟨hp, hst, c1, rfl, -, -, hc1⟩ := finalizeContract_ok hex
      by_cases he : cid = cid0
      · subst he
        rcases hc1 with hC | ⟨hF, hca, hta⟩
        · left
          rw [setContract_eq, hC, hst]
        · right; right; right; right; right; right
          exact ⟨hst, by rw [setContract_eq]; exact hF, ⟨sender, rfl⟩,
            by rw [setContract_eq]; exact hca, by rw [setContract_eq]; exact hta⟩
      · left
        rw [setContract_ne _ _ _ he]
    | cancel sender cid0 =>
      obtain ⟨hc, hst, rfl⟩ := cancelContract_ok hex
      by_cases he : cid = cid0
      · subst he
        right; right; left
        refine ⟨hst, ?_, ⟨sender, rfl⟩⟩
        simp [setContract_eq]
      · left
        simp only [setContract_ne _ _ _ he]
    | setFee sender pct =>
      obtain rfl := setPlatformFee_ok hex
      left; rfl
    | setWallet sender w =>
      obtain rfl := setPlatformWallet_ok hex
      left; rfl

end EmploymentContract

namespace EmploymentContract

theorem lt_of_get?_some {α : Type} {l : List α} {n : Nat} {a : α}
    (h : l.get? n = some a) : n < l.length := by
  cases Nat.lt_or_ge n l.length with
  | inl hlt => exact hlt
  | inr hge => rw [List.get?_eq_none.mpr hge] at h; cases h

theorem setMilestone_milestones (s : EState) (cid0 idx0 : Nat) (m : Milestone) (j : Nat) :
    ((setMilestone s cid0 idx0 m).contracts j).milestones =
      if j = cid0 then (s.contracts cid0).milestones.set idx0 m
      else (s.contracts j).milestones := by
  rw [setMilestone_contracts]
  by_cases he : j = cid0
  · subst he; rw [if_pos rfl, if_pos rfl]
  · rw [if_neg he, if_neg he]

/-- C7: in every reachable ledger state a milestone's status only moves
forward along Pending → InProgress → Submitted → Approved → Paid: every
transaction leaves each milestone's rank no smaller than before, a
successful `submitMilestone` starts from Pending or InProgress and ends
Submitted, a successful `approveMilestone` starts from Submitted, and
the internal payment release fires only from Approved. -/
theorem c7_milestone_monotonic (s : EState) (tx : Tx) (t cid idx : Nat)
    (hr : Reachable s) (hs : txSender tx ≠ 0) :
    (∀ m m', (s.contracts cid).milestones.get? idx = some m →
      ((applyTx tx t s).contracts cid).milestones.get? idx = some m' →
      mrank m.status ≤ mrank m'.status) ∧
    (∀ sender ipfs s', exec (Tx.submit sender cid idx ipfs) t s = .ok s' →
      ∃ m, (s.contracts cid).milestones.get? idx = some m ∧
        (m.status = .PENDING ∨ m.status = .IN_PROGRESS) ∧
        ∃ m', ((s'.contracts cid).milestones.get? idx = some m' ∧
          m'.status = .SUBMITTED)) ∧
    (∀ sender s', exec (Tx.approve sender cid idx) t s = .ok s' →
      ∃ m, (s.contracts cid).milestones.get? idx = some m ∧ m.status = .SUBMITTED) ∧
    (∀ s', releaseMilestonePayment cid idx s = .ok s' →
      ∃ m, (s.contracts cid).milestones.get? idx = some m ∧ m.status = .APPROVED) := by
  have hf : fresh s := reachable_fresh hr
  refine ⟨?_, ?_, ?_, ?_⟩
  · intro m m' hm hm'
    unfold applyTx at hm'
    cases hex : exec tx t s with
    | error e =>
      rw [hex] at hm'
      dsimp only at hm'
      rw [hm] at hm'
      cases hm'
      exact Nat.le_refl _
    | ok s' =>
      rw [hex] at hm'
      dsimp only at hm'
      cases tx with
      | create sender value talent jt im sd ed ds as_ dl =>
        obtain ⟨-, -, -, -, -, -, rfl⟩ := createContract_ok hex
        dsimp only at hm'
        by_cases he : cid = s.contractCounter + 1
        · rw [if_pos he] at hm'
          have hemp : s.contracts cid = emptyContract := by
            apply hf cid
            right
            omega
          rw [hemp] at hm
          simp [emptyContract] at hm
        · rw [if_neg he] at hm'
          rw [hm] at hm'
          cases hm'
          exact Nat.le_refl _
      | accept sender cid0 =>
        obtain ⟨-, -, rfl⟩ := acceptContract_ok hex
        have hmil : ((setContract s cid0 { s.contracts cid0 with status := .ACTIVE }).contracts
            cid).milestones = (s.contracts cid).milestones := by
          by_cases he : cid = cid0
          · subst he; rw [setContract_eq]
          · rw [setContract_ne _ _ _ he]
        rw [hmil, hm] at hm'
        cases hm'
        exact Nat.le_refl _
      | submit sender cid0 idx0 ipfs =>
        obtain ⟨ms, hms, -, -, hpre, rfl⟩ := submitMilestone_ok hex
        rw [setMilestone_milestones] at hm'
        by_cases he : cid = cid0
        · rw [if_pos he] at hm'
          subst he
          by_cases hi : idx = idx0
          · subst hi
            have hmeq : m = ms := Option.some.inj (hm.symm.trans hms)
            rw [List.get?_set_eq_of_lt _ (lt_of_get?_some hms)] at hm'
            cases hm'
            rw [hmeq]
            rcases hpre with h | h <;> rw [h] <;> norm_num [mrank]
          · rw [List.get?_set_ne _ _ (fun hx => hi hx.symm)] at hm'
            rw [hm] at hm'
            cases hm'
            exact Nat.le_refl _
        · rw [if_neg he] at hm'
          rw [hm] at hm'
          cases hm'
          exact Nat.le_refl _
      | approve sender cid0 idx0 =>
        obtain ⟨ms, hms, -, -, hsub, hrel⟩ := approveMilestone_ok hex
        obtain ⟨m2, hm2, hap2, hshape⟩ := releaseMilestonePayment_ok hrel
        dsimp only at hshape
        have hmil : (s'.contracts cid).milestones =
            if cid = cid0 then
              (((s.contracts cid0).milestones.set idx0
                { ms with status := .APPROVED }).set idx0 { m2 with status := .PAID })
            else (s.contracts cid).milestones := by
          rcases hshape with ⟨-, rfl⟩ | ⟨-, rfl⟩
          · by_cases he : cid = cid0
            · subst he
              rw [if_pos rfl, setContract_eq]
              show ((setMilestone (setMilestone s cid idx0 _) cid idx0 _).contracts
                cid).milestones = _
              rw [setMilestone_milestones, if_pos rfl, setMilestone_milestones, if_pos rfl]
            · rw [if_neg he, setContract_ne _ _ _ he]
              show ((setMilestone (setMilestone s cid0 idx0 _) cid0 idx0 _).contracts
                cid).milestones = _
              rw [setMilestone_milestones, if_neg he, setMilestone_milestones, if_neg he]
          · by_cases he : cid = cid0
            · subst he
              rw [if_pos rfl]
              show ((setMilestone (setMilestone s cid idx0 _) cid idx0 _).contracts
                cid).milestones = _
              rw [setMilestone_milestones, if_pos rfl, setMilestone_milestones, if_pos rfl]
            · rw [if_neg he]
              show ((setMilestone (setMilestone s cid0 idx0 _) cid0 idx0 _).contracts
                cid).milestones = _
              rw [setMilestone_milestones, if_neg he, setMilestone_milestones, if_neg he]
        rw [hmil] at hm'
        by_cases he : cid = cid0
        · rw [if_pos he] at hm'
          subst he
          by_cases hi : idx = idx0
          · subst hi
            have hmeq : m = ms := Option.some.inj (hm.symm.trans hms)
            have hlt : idx < ((s.contracts cid).milestones.set idx
                { ms with status := .APPROVED }).length := by
              rw [List.length_set]
              exact lt_of_get?_some hm
            rw [List.get?_set_eq_of_lt _ hlt] at hm'
            cases hm'
            rw [hmeq, hsub]
            norm_num [mrank]
          · rw [List.get?_set_ne _ _ (fun hx => hi hx.symm),
                List.get?_set_ne _ _ (fun hx => hi hx.symm)] at hm'
            rw [hm] at hm'
            cases hm'
            exact Nat.le_refl _
        · rw [if_neg he] at hm'
          rw [hm] at hm'
          cases hm'
          exact Nat.le_refl _
      | dispute sender cid0 =>
        obtain ⟨-, -, rfl⟩ := raiseDispute_ok hex
        have hmil : ((setContract s cid0 { s.contracts cid0 with status := .DISPUTED }).contracts
            cid).milestones = (s.contracts cid).milestones := by
          by_cases he : cid = cid0
          · subst he; rw [setContract_eq]
          · rw [setContract_ne _ _ _ he]
        rw [hmil, hm] at hm'
        cases hm'
        exact Nat.le_refl _
      | finalize sender cid0 =>
        obtain ⟨-, -, c1, rfl, hmilc, -, -⟩ := finalizeContract_ok hex
        have hmil : ((setContract s cid0 c1).contracts cid).milestones =
            (s.contracts cid).milestones := by
          by_cases he : cid = cid0
          · subst he; rw [setContract_eq, hmilc]
          · rw [setContract_ne _ _ _ he]
        rw [hmil, hm] at hm'
        cases hm'
        exact Nat.le_refl _
      | cancel sender cid0 =>
        obtain ⟨-, -, rfl⟩ := cancelContract_ok hex
        have hmil : (({ setContract s cid0 { s.contracts cid0 with status := .CANCELLED } with
            transfers := s.transfers ++
              [((s.contracts cid0).company, (s.contracts cid0).totalAmount)] }).contracts
            cid).milestones = (s.contracts cid).milestones := by
          show ((setContract s cid0 _).contracts cid).milestones = _
          by_cases he : cid = cid0
          · subst he; rw [setContract_eq]
          · rw [setContract_ne _ _ _ he]
        rw [hmil, hm] at hm'
        cases hm'
        exact Nat.le_refl _
      | setFee sender pct =>
        obtain rfl := setPlatformFee_ok hex
        rw [hm] at hm'
        cases hm'
        exact Nat.le_refl _
      | setWallet sender w =>
        obtain rfl := setPlatformWallet_ok hex
        rw [hm] at hm'
        cases hm'
        exact Nat.le_refl _
  · intro sender ipfs s' hex
    obtain ⟨m, hm, -, -, hpre, rfl⟩ := submitMilestone_ok hex
    refine ⟨m, hm, hpre, ⟨{ m with status := .SUBMITTED, ipfsHash := ipfs }, ?_, rfl⟩⟩
    rw [setMilestone_milestones, if_pos rfl]
    exact List.get?_set_eq_of_lt _ (lt_of_get?_some hm)
  · intro sender s' hex
    obtain ⟨m, hm, -, -, hsub, -⟩ := approveMilestone_ok hex
    exact ⟨m, hm, hsub⟩
  · intro s' hrel
    obtain ⟨m, hm, hap, -⟩ := releaseMilestonePayment_ok hrel
    exact ⟨m, hm, hap⟩

end EmploymentContract

namespace EmploymentContract

theorem setMilestone_totalAmount (s : EState) (cid0 idx0 : Nat) (m : Milestone) (j : Nat) :
    ((setMilestone s cid0 idx0 m).contracts j).totalAmount = (s.contracts j).totalAmount := by
  rw [setMilestone_contracts]
  by_cases he : j = cid0
  · subst he; rw [if_pos rfl]
  · rw [if_neg he]

theorem buildMilestones_amounts (ds : List String) : ∀ (as_ dls : List Nat),
    ds.length = as_.length → ds.length = dls.length →
    (buildMilestones ds as_ dls).map (·.amount) = as_ := by
  induction ds with
  | nil =>
    intro as_ dls h1 _
    cases as_ with
    | nil => rfl
    | cons a as2 => simp at h1
  | cons d ds ih =>
    intro as_ dls h1 h2
    cases as_ with
    | nil => simp at h1
    | cons a as2 =>
      cases dls with
      | nil => simp at h2
      | cons dl dls2 =>
        simp only [buildMilestones, List.map_cons]
        rw [ih as2 dls2 (by simpa using h1) (by simpa using h2)]

/-- C8: a successful `createContract` records a total escrowed value
equal to the sum of the stored milestone amounts and to the sent value;
creation reverts when the sent value differs from the milestone sum,
when the milestone arrays have mismatched lengths, or when there are no
milestones; and no operation ever changes the recorded total of an
already-assigned agreement id. -/
theorem c8_escrow_total (s : EState) (sender value talent : Nat)
    (jobTitle ipfsMetadata : String) (startDate endDate : Nat)
    (descs : List String) (amounts deadlines : List Nat) (t : Nat) (s' : EState)
    (hok : createContract sender value talent jobTitle ipfsMetadata startDate endDate
      descs amounts deadlines t s = .ok s') :
    (let c := s'.contracts (s.contractCounter + 1)
     c.totalAmount = (c.milestones.map (·.amount)).foldl (· + ·) 0 ∧
     c.totalAmount = value) ∧
    (∀ (sender2 value2 talent2 : Nat) (jt2 im2 : String) (sd2 ed2 : Nat)
      (ds2 : List String) (as2 dls2 : List Nat) (t2 : Nat) (s2 : EState),
      value2 ≠ as2.foldl (· + ·) 0 →
      (createContract sender2 value2 talent2 jt2 im2 sd2 ed2 ds2 as2 dls2 t2 s2).isOk
        = false) ∧
    (∀ (sender2 value2 talent2 : Nat) (jt2 im2 : String) (sd2 ed2 : Nat)
      (ds2 : List String) (as2 dls2 : List Nat) (t2 : Nat) (s2 : EState),
      ds2.length ≠ as2.length →
      (createContract sender2 value2 talent2 jt2 im2 sd2 ed2 ds2 as2 dls2 t2 s2).isOk
        = false) ∧
    (∀ (sender2 value2 talent2 : Nat) (jt2 im2 : String) (sd2 ed2 : Nat)
      (as2 dls2 : List Nat) (t2 : Nat) (s2 : EState),
      (createContract sender2 value2 talent2 jt2 im2 sd2 ed2 [] as2 dls2 t2 s2).isOk
        = false) ∧
    (∀ (s2 : EState) (tx : Tx) (t2 cid : Nat), cid ≤ s2.contractCounter →
      ((applyTx tx t2 s2).contracts cid).totalAmount = (s2.contracts cid).totalAmount) := by
  obtain ⟨-, -, hlenA, hlenD, -, hval, rfl⟩ := createContract_ok hok
  refine ⟨?_, ?_, ?_, ?_, ?_⟩
  · dsimp only
    rw [if_pos rfl]
    dsimp only
    rw [buildMilestones_amounts descs amounts deadlines hlenA hlenD]
    exact ⟨rfl, hval.symm⟩
  · intro sender2 value2 talent2 jt2 im2 sd2 ed2 ds2 as2 dls2 t2 s2 hne
    cases hE : createContract sender2 value2 talent2 jt2 im2 sd2 ed2 ds2 as2 dls2 t2 s2 with
    | error e => rfl
    | ok s2' => exact absurd (createContract_ok hE).2.2.2.2.2.1 hne
  · intro sender2 value2 talent2 jt2 im2 sd2 ed2 ds2 as2 dls2 t2 s2 hne
    cases hE : createContract sender2 value2 talent2 jt2 im2 sd2 ed2 ds2 as2 dls2 t2 s2 with
    | error e => rfl
    | ok s2' => exact absurd (createContract_ok hE).2.2.1 hne
  · intro sender2 value2 talent2 jt2 im2 sd2 ed2 as2 dls2 t2 s2
    cases hE : createContract sender2 value2 talent2 jt2 im2 sd2 ed2 [] as2 dls2 t2 s2 with
    | error e => rfl
    | ok s2' => exact absurd (createContract_ok hE).2.2.2.2.1 (by simp)
  · intro s2 tx t2 cid hle
    unfold applyTx
    cases hex : exec tx t2 s2 with
    | error e => rfl
    | ok s2' =>
      cases tx with
      | create sender2 value2 talent2 jt2 im2 sd2 ed2 ds2 as2 dls2 =>
        obtain ⟨-, -, -, -, -, -, rfl⟩ := createContract_ok hex
        dsimp only
        rw [if_neg (by omega)]
      | accept sender2 cid0 =>
        obtain ⟨-, -, rfl⟩ := acceptContract_ok hex
        by_cases he : cid = cid0
        · subst he; rw [setContract_eq]
        · rw [setContract_ne _ _ _ he]
      | submit sender2 cid0 idx0 ipfs =>
        obtain ⟨m, -, -, -, -, rfl⟩ := submitMilestone_ok hex
        rw [setMilestone_totalAmount]
      | approve sender2 cid0 idx0 =>
        obtain ⟨ms, -, -, -, -, hrel⟩ := approveMilestone_ok hex
        obtain ⟨m2, -, -, hshape⟩ := releaseMilestonePayment_ok hrel
        dsimp only at hshape
        rcases hshape with ⟨-, rfl⟩ | ⟨-, rfl⟩
        · by_cases he : cid = cid0
          · subst he
            rw [setContract_eq]
            show ((setMilestone (setMilestone s2 cid idx0 _) cid idx0 _).contracts
              cid).totalAmount = _
            rw [setMilestone_totalAmount, setMilestone_totalAmount]
          · rw [setContract_ne _ _ _ he]
            show ((setMilestone (setMilestone s2 cid0 idx0 _) cid0 idx0 _).contracts
              cid).totalAmount = _
            rw [setMilestone_totalAmount, setMilestone_totalAmount]
        · show ((setMilestone (setMilestone s2 cid0 idx0 _) cid0 idx0 _).contracts
            cid).totalAmount = _
          rw [setMilestone_totalAmount, setMilestone_totalAmount]
      | dispute sender2 cid0 =>
        obtain ⟨-, -, rfl⟩ := raiseDispute_ok hex
        by_cases he : cid = cid0
        · subst he; rw [setContract_eq]
        · rw [setContract_ne _ _ _ he]
      | finalize sender2 cid0 =>
        obtain ⟨-, -, c1, rfl, -, hta, -⟩ := finalizeContract_ok hex
        by_cases he : cid = cid0
        · subst he; rw [setContract_eq, hta]
        · rw [setContract_ne _ _ _ he]
      | cancel sender2 cid0 =>
        obtain ⟨-, -, rfl⟩ := cancelContract_ok hex
        show ((setContract s2 cid0 _).contracts cid).totalAmount = _
        by_cases he : cid = cid0
        · subst he; rw [setContract_eq]
        · rw [setContract_ne _ _ _ he]
      | setFee sender2 pct =>
        obtain rfl := setPlatformFee_ok hex
        rfl
      | setWallet sender2 w =>
        obtain rfl := setPlatformWallet_ok hex
        rfl

end EmploymentContract

namespace EmploymentContract

/-- C9: for a milestone of amount `a` under the default 2% platform fee,
the payment release transfers exactly `a - a*2/100` to the talent and
`a*2/100` to the platform wallet, and the two add up to `a` exactly; in
the concrete 1.0 + 2.0 ether scenario the cumulative platform fee after
both approvals is exactly 2% of 3.0 ether and the agreement completes. -/
theorem c9_fee_split (s : EState) (cid idx : Nat) (m : Milestone) (s' : EState)
    (hm : (s.contracts cid).milestones.get? idx = some m)
    (hfee : s.platformFeePercent = 2)
    (hok : releaseMilestonePayment cid idx s = .ok s') :
    (s'.transfers = s.transfers ++
        [((s.contracts cid).talent, m.amount - m.amount * 2 / 100),
         (s.platformWallet, m.amount * 2 / 100)] ∧
      (m.amount - m.amount * 2 / 100) + m.amount * 2 / 100 = m.amount) ∧
    (sumPaidTo scnWallet scnS6 = 3000000000000000000 * 2 / 100 ∧
     sumPaidTo scnWallet scnS6 = 60000000000000000 ∧
     (scnS6.contracts 1).status = .COMPLETED ∧
     sumPaidTo scnTalent scnS6 + sumPaidTo scnWallet scnS6 = 3000000000000000000) := by
  obtain ⟨m2, hm2, -, hshape⟩ := releaseMilestonePayment_ok hok
  have hmeq : m2 = m := Option.some.inj (hm2.symm.trans hm)
  subst hmeq
  constructor
  · have hsub : m2.amount * 2 / 100 ≤ m2.amount := by
      have h1 : m2.amount * 2 ≤ m2.amount * 100 :=
        Nat.mul_le_mul_left _ (by norm_num)
      have h2 : m2.amount * 2 / 100 ≤ m2.amount * 100 / 100 := Nat.div_le_div_right h1
      rwa [Nat.mul_div_cancel _ (by norm_num)] at h2
    refine ⟨?_, Nat.sub_add_cancel hsub⟩
    dsimp only at hshape
    rw [hfee] at hshape
    rcases hshape with ⟨-, rfl⟩ | ⟨-, rfl⟩
    · rfl
    · rfl
  · refine ⟨by decide, by decide, by decide, by decide⟩

end EmploymentContract

namespace EmploymentContract

theorem scnS1_reachable : Reachable scnS1 :=
  Reachable.step scnCreateTx 50 (Reachable.deployed 9 scnWallet) (by decide) rfl

theorem scnS2_reachable : Reachable scnS2 :=
  Reachable.step (Tx.accept scnTalent 1) 51 scnS1_reachable (by decide) rfl

/-- C6 witness: the transition theorem at the concrete acceptance step of
the scenario agreement. -/
theorem c6_witness :
    contractStep (Tx.accept scnTalent 1) 1 scnS1 (applyTx (Tx.accept scnTalent 1) 51 scnS1) :=
  c6_agreement_transitions scnS1 (Tx.accept scnTalent 1) 51 1 scnS1_reachable (by decide)

/-- C7 witness: the monotonicity theorem at the concrete submission of
milestone 0, moving it from Pending to Submitted. -/
theorem c7_witness :
    mrank ({ description := "m1", amount := 1000000000000000000, deadline := 100
             status := .PENDING, ipfsHash := "" } : Milestone).status ≤
    mrank ({ description := "m1", amount := 1000000000000000000, deadline := 100
             status := .SUBMITTED, ipfsHash := "ipfs1" } : Milestone).status :=
  (c7_milestone_monotonic scnS2 (Tx.submit scnTalent 1 0 "ipfs1") 52 1 0
      scnS2_reachable (by decide)).1
    { description := "m1", amount := 1000000000000000000, deadline := 100
      status := .PENDING, ipfsHash := "" }
    { description := "m1", amount := 1000000000000000000, deadline := 100
      status := .SUBMITTED, ipfsHash := "ipfs1" }
    (by decide) (by decide)

/-- C8 witness: the escrow theorem at the scenario creation (total
3.0 ether over milestones of 1.0 and 2.0 ether). -/
theorem c8_witness :
    (let c := scnS1.contracts (scnS0.contractCounter + 1)
     c.totalAmount = (c.milestones.map (·.amount)).foldl (· + ·) 0 ∧
     c.totalAmount = 3000000000000000000) :=
  (c8_escrow_total scnS0 scnCompany 3000000000000000000 scnTalent "Engineer" "" 10 20
    ["m1", "m2"] [1000000000000000000, 2000000000000000000] [100, 200] 50 scnS1 rfl).1

/-- C9 witness: the fee-split theorem at the release of the approved
1.0-ether milestone. -/
theorem c9_witness :
    sumPaidTo scnWallet scnS6 = 3000000000000000000 * 2 / 100 ∧
    sumPaidTo scnWallet scnS6 = 60000000000000000 ∧
    (scnS6.contracts 1).status = .COMPLETED ∧
    sumPaidTo scnTalent scnS6 + sumPaidTo scnWallet scnS6 = 3000000000000000000 :=
  (c9_fee_split scnRel 1 0
    { description := "m1", amount := 1000000000000000000, deadline := 100
      status := .APPROVED, ipfsHash := "ipfs1" }
    scnRelAfter (by decide) (by decide) rfl).2

end EmploymentContract
